import Mathlib

/-!
Shallow embedding of the recommendation ranking engine of
`backend/recommendations/langchain_service_fast.py`
(`UniversityRecommendationService`), together with theorems settling the
frozen claims about it.

Modelling conventions:
* Python numbers (ints and floats flowing through the scorer) are modelled
  as `ℚ`; Python strings as `String`.
* A Python dict field read with `.get(key)` is an `Option` field; Python
  truthiness of such a value (`if d.get(k):`) is modelled by the explicit
  helpers `strTruthy` / `numTruthy` / `listTruthy` (None, `""`, `0`, `[]`
  are falsy).
* `needle.lower() in hay.lower()` is modelled by `lowerIn`, built from an
  explicit structurally recursive substring test over `List Char`.
* `list.sort(key=..., reverse=True)` (CPython's stable sort, descending by
  key) is modelled by `List.insertionSort` with the reflexive, total,
  transitive relation "key not smaller": Mathlib's `insertionSort` is
  stable (`List.sublist_insertionSort`), so it computes the same list as
  any stable sort with that comparison, which is exactly Python's.
* The FAISS vector search is an external collaborator: it enters the
  embedding as a function argument `search : String → Nat → Except String _`
  returning the retrieved `(metadata, distance)` pairs in retrieval order,
  or an error (modelling a raised exception, e.g. an embedding-provider
  failure).
-/

/-- Structurally recursive prefix test on character lists
(models Python string equality at the head of a substring scan). -/
def isPrefixList : List Char → List Char → Bool
  | [], _ => true
  | _ :: _, [] => false
  | a :: as, b :: bs => a == b && isPrefixList as bs

/-- Substring test: does `needle` occur contiguously inside the second list?
Models Python's `needle in hay` on strings. -/
def isSubOf (needle : List Char) : List Char → Bool
  | [] => needle.isEmpty
  | b :: bs => isPrefixList needle (b :: bs) || isSubOf needle bs

/-- Models Python's `needle.lower() in hay.lower()` case-insensitive
substring test used throughout the match scorer. -/
def lowerIn (needle hay : String) : Bool :=
  isSubOf (needle.toList.map Char.toLower) (hay.toList.map Char.toLower)

/-- Lexicographic order on character lists by code point: models Python's
string comparison, which `sorted` uses for alphabetical ordering. -/
def lexLe : List Char → List Char → Bool
  | [], _ => true
  | _ :: _, [] => false
  | a :: as, b :: bs => if a == b then lexLe as bs else decide (a.toNat < b.toNat)

/-- Python's `s <= t` on strings (lexicographic by code point). -/
def strLe (s t : String) : Bool := lexLe s.toList t.toList

/-- Python truthiness of an optional string (`None` and `""` are falsy). -/
def strTruthy : Option String → Bool
  | none => false
  | some s => !s.isEmpty

/-- Python truthiness of an optional number (`None` and `0` are falsy). -/
def numTruthy : Option ℚ → Bool
  | none => false
  | some q => q != 0

/-- Python truthiness of a list (`[]` is falsy; a missing key behaves the
same as an empty list in every consumer, so both are modelled as `[]`). -/
def listTruthy (l : List String) : Bool := !l.isEmpty

/-- The per-candidate metadata dict stored in the vector index
(built in `_load_data`; every field is read back with `.get`, so every
field is optional). Fields never read by the scorer, the reasoning
generator or the query builder are carried opaquely. -/
structure Metadata where
  university_id : Option String := none
  course_id : Option String := none
  university_name : Option String := none
  university_slug : Option String := none
  course_name : Option String := none
  course_program_label : Option String := none
  program_level : Option String := none
  program_type : Option String := none
  credential : Option String := none
  parent_course : Option String := none
  location : Option String := none
  country : Option String := none
  global_rank : Option ℚ := none
  tuition_usd : Option ℚ := none
  tuition_local : Option ℚ := none
  university_type : Option String := none
  currency : Option String := none
  is_partner : Option Bool := none
  is_published : Option Bool := none
  university_views : Option ℚ := none
  scholarship_count : Option ℚ := none
  is_gre_required : Option String := none
  tuition_affordability : Option ℚ := none
  university_quality : Option ℚ := none
deriving DecidableEq

/-- The user-preferences dict passed to `get_recommendations`. Every read
is a `.get`, so every field is optional; list-valued fields use `[]` for
"absent", which Python treats identically to a missing key. -/
structure Preferences where
  desired_program : Option String := none
  program_level : Option String := none
  program_type : Option String := none
  preferred_countries : List String := []
  preferred_locations : List String := []
  university_types : List String := []
  max_tuition_usd : Option ℚ := none
  min_global_rank : Option ℚ := none
  additional_preferences : Option String := none
deriving DecidableEq

/-- Program-category points of `_calculate_match_percentage`
(lines 276-282): returns `(match_points, total_points)` contributed by the
desired-program category. -/
def programPoints (m : Metadata) (p : Preferences) : ℚ × ℚ :=
  if strTruthy p.desired_program then
    if strTruthy m.parent_course &&
        lowerIn (p.desired_program.getD "") (m.parent_course.getD "") then
      (25, 25)
    else if strTruthy m.course_name &&
        lowerIn (p.desired_program.getD "") (m.course_name.getD "") then
      (20, 25)
    else (0, 25)
  else (0, 0)

/-- Program-level category points (lines 284-288). -/
def levelPoints (m : Metadata) (p : Preferences) : ℚ × ℚ :=
  if strTruthy p.program_level then
    if strTruthy m.program_type &&
        lowerIn (p.program_level.getD "") (m.program_type.getD "") then
      (15, 15)
    else (0, 15)
  else (0, 0)

/-- Country category points (lines 290-294). -/
def countryPoints (m : Metadata) (p : Preferences) : ℚ × ℚ :=
  if listTruthy p.preferred_countries then
    if strTruthy m.country && p.preferred_countries.contains (m.country.getD "") then
      (20, 20)
    else (0, 20)
  else (0, 0)

/-- University-type category points (lines 296-300). -/
def typePoints (m : Metadata) (p : Preferences) : ℚ × ℚ :=
  if listTruthy p.university_types then
    if strTruthy m.university_type &&
        p.university_types.contains (m.university_type.getD "") then
      (15, 15)
    else (0, 15)
  else (0, 0)

/-- Tuition category points (lines 302-306). Note the guard: the weight
enters `total_points` only when BOTH the preference `max_tuition_usd` and
the record's `tuition_usd` are truthy. -/
def tuitionPoints (m : Metadata) (p : Preferences) : ℚ × ℚ :=
  if numTruthy p.max_tuition_usd && numTruthy m.tuition_usd then
    if m.tuition_usd.getD 0 ≤ p.max_tuition_usd.getD 0 then (15, 15) else (0, 15)
  else (0, 0)

/-- Global-rank category points (lines 308-312), with the same
both-sides-truthy guard as tuition. -/
def rankPoints (m : Metadata) (p : Preferences) : ℚ × ℚ :=
  if numTruthy p.min_global_rank && numTruthy m.global_rank then
    if m.global_rank.getD 0 ≤ p.min_global_rank.getD 0 then (10, 10) else (0, 10)
  else (0, 0)

/-- Accumulated `(match_points, total_points)` of
`_calculate_match_percentage`: the sequential `+=` accumulation over the
six independent categories equals this componentwise sum. -/
def matchTotals (m : Metadata) (p : Preferences) : ℚ × ℚ :=
  ((programPoints m p).1 + (levelPoints m p).1 + (countryPoints m p).1 +
    (typePoints m p).1 + (tuitionPoints m p).1 + (rankPoints m p).1,
   (programPoints m p).2 + (levelPoints m p).2 + (countryPoints m p).2 +
    (typePoints m p).2 + (tuitionPoints m p).2 + (rankPoints m p).2)

/-- Embeds `_calculate_match_percentage` (lines 271-315):
`match_points / total_points * 100` if `total_points > 0`, else `0`. -/
def calculateMatchPercentage (m : Metadata) (p : Preferences) : ℚ :=
  if (matchTotals m p).2 > 0 then
    (matchTotals m p).1 / (matchTotals m p).2 * 100
  else 0

/-- Renders a rational whose denominator is 1 like Python renders the
corresponding int (used only inside reason strings; the claims never
inspect the digits). -/
def ratToStr (q : ℚ) : String :=
  if q.den == 1 then toString q.num else toString q

/-- Comma-groups the decimal digits of a natural number the way Python's
`:,` format modifier does (e.g. 20000 becomes "20,000"). -/
def natCommas (n : Nat) : String :=
  String.mk ((List.intercalate [','] ((toString n).toList.reverse.toChunks 3)).reverse)

/-- Models Python's `f"{x:,.0f}"`: round to an integer and comma-group.
Python rounds exact halves to even; the claims never evaluate this at an
exact half, so rounding half up is indistinguishable here. -/
def usdRender (q : ℚ) : String :=
  if q < 0 then "-" ++ natCommas (Int.floor (-q + 1/2)).toNat
  else natCommas (Int.floor (q + 1/2)).toNat

/-- Models Python's `f"{x:.1f}"` (one fractional digit), with the same
half-rounding caveat as `usdRender`. -/
def fmtOneDecimal (q : ℚ) : String :=
  toString (Int.floor (q * 10 + 1/2) / 10) ++ "." ++
    toString ((Int.floor (q * 10 + 1/2)) % 10)

/-- The `reasons` list accumulated by `_generate_fallback_reasoning`
(lines 317-363): each sequentially guarded `reasons.append(...)` becomes
one appended singleton. -/
def fallbackReasons (m : Metadata) (p : Preferences) : List String :=
  (if strTruthy p.desired_program && strTruthy m.parent_course &&
      lowerIn (p.desired_program.getD "") (m.parent_course.getD "") then
    ["Perfect program match: " ++ p.desired_program.getD ""]
  else []) ++
  (if listTruthy p.preferred_countries && strTruthy m.country &&
      p.preferred_countries.contains (m.country.getD "") then
    ["Located in your preferred country: " ++ m.country.getD ""]
  else []) ++
  (if numTruthy p.max_tuition_usd && numTruthy m.tuition_usd &&
      decide (m.tuition_usd.getD 0 ≤ p.max_tuition_usd.getD 0) then
    ["Within your budget: $" ++ usdRender (m.tuition_usd.getD 0)]
  else []) ++
  (if numTruthy p.min_global_rank && numTruthy m.global_rank &&
      decide (m.global_rank.getD 0 ≤ p.min_global_rank.getD 0) then
    ["Meets your ranking criteria: #" ++ ratToStr (m.global_rank.getD 0)]
  else []) ++
  (if listTruthy p.university_types && strTruthy m.university_type &&
      p.university_types.contains (m.university_type.getD "") then
    ["University type matches: " ++ m.university_type.getD ""]
  else []) ++
  (if numTruthy m.scholarship_count && decide ((0 : ℚ) < m.scholarship_count.getD 0) then
    ["Offers " ++ ratToStr (m.scholarship_count.getD 0) ++ " scholarship opportunities"]
  else []) ++
  (if strTruthy m.is_gre_required && (m.is_gre_required.getD "") != "NA" then
    ["GRE requirement: " ++ m.is_gre_required.getD ""]
  else []) ++
  (if numTruthy m.university_quality then
    (if (8 : ℚ)/10 < m.university_quality.getD 0 then
      ["High university quality score"]
    else if (6 : ℚ)/10 < m.university_quality.getD 0 then
      ["Good university quality score"]
    else [])
  else []) ++
  (if numTruthy m.tuition_affordability then
    (if (7 : ℚ)/10 < m.tuition_affordability.getD 0 then
      ["Highly affordable tuition"]
    else if (5 : ℚ)/10 < m.tuition_affordability.getD 0 then
      ["Moderately affordable tuition"]
    else [])
  else [])

/-- Embeds `_generate_fallback_reasoning` (lines 317-370): joins the
accumulated reasons into the final reasoning sentence. -/
def generateFallbackReasoning (m : Metadata) (p : Preferences) (matchPercentage : ℚ) : String :=
  if !(fallbackReasons m p).isEmpty then
    "This course matches " ++ fmtOneDecimal matchPercentage ++
      "% of your preferences. Key factors: " ++
      String.intercalate "; " (fallbackReasons m p) ++ "."
  else
    "This course matches " ++ fmtOneDecimal matchPercentage ++
      "% of your preferences based on program, location, and cost factors."

/-- Embeds `_create_query_from_preferences` (lines 240-269): sequential
conditional appends to `query_parts`, then a single-space join. -/
def createQueryFromPreferences (p : Preferences) : String :=
  String.intercalate " " (
    (if strTruthy p.desired_program then
      ["Program: " ++ p.desired_program.getD ""] else []) ++
    (if strTruthy p.program_level then
      ["Level: " ++ p.program_level.getD ""] else []) ++
    (if strTruthy p.program_type then
      ["Degree: " ++ p.program_type.getD ""] else []) ++
    (if listTruthy p.preferred_countries then
      ["Countries: " ++ String.intercalate ", " p.preferred_countries] else []) ++
    (if listTruthy p.preferred_locations then
      ["Locations: " ++ String.intercalate ", " p.preferred_locations] else []) ++
    (if listTruthy p.university_types then
      ["University Types: " ++ String.intercalate ", " p.university_types] else []) ++
    (if strTruthy p.additional_preferences then
      ["Additional: " ++ p.additional_preferences.getD ""] else []))

/-- Follows the spec's words for the Query Synthesizer: "concatenate, in a
fixed order (program, level, degree type, countries, locations, university
types, free text), only the present fields, each rendered as
Label: value, joined by single spaces; absent fields are omitted entirely".
Kept distinct from `createQueryFromPreferences` so the two can be compared. -/
def buildQuerySpec (p : Preferences) : String :=
  String.intercalate " " (List.filterMap id
    [if strTruthy p.desired_program then
      some ("Program: " ++ p.desired_program.getD "") else none,
     if strTruthy p.program_level then
      some ("Level: " ++ p.program_level.getD "") else none,
     if strTruthy p.program_type then
      some ("Degree: " ++ p.program_type.getD "") else none,
     if listTruthy p.preferred_countries then
      some ("Countries: " ++ String.intercalate ", " p.preferred_countries) else none,
     if listTruthy p.preferred_locations then
      some ("Locations: " ++ String.intercalate ", " p.preferred_locations) else none,
     if listTruthy p.university_types then
      some ("University Types: " ++ String.intercalate ", " p.university_types) else none,
     if strTruthy p.additional_preferences then
      some ("Additional: " ++ p.additional_preferences.getD "") else none])

/-- One ranked output entry of `get_recommendations` (lines 189-219).
The Python dict copies the metadata fields one by one; the copy is carried
here as the `metadata` component. -/
structure Recommendation where
  metadata : Metadata
  similarity_score : ℚ
  match_percentage : ℚ
  llm_reasoning : String
  relevance_score : ℚ
deriving DecidableEq

/-- Follows the spec's words for the relevance blend:
"relevance_score = (match_percentage/100 + (1 - similarity_score)) / 2".
Kept distinct from the code's blend so the two can be compared. -/
def relevanceSpecBlend (matchPercentage similarityScore : ℚ) : ℚ :=
  (matchPercentage / 100 + (1 - similarityScore)) / 2

/-- Scores one retrieved `(metadata, distance)` candidate exactly as the
loop body of `get_recommendations` (lines 178-221) does, including the
code's relevance blend `(match_percentage + (1 - score)) / 2` (line 218). -/
def scoreCandidate (p : Preferences) (ds : Metadata × ℚ) : Recommendation :=
  { metadata := ds.1
    similarity_score := ds.2
    match_percentage := calculateMatchPercentage ds.1 p
    llm_reasoning := generateFallbackReasoning ds.1 p (calculateMatchPercentage ds.1 p)
    relevance_score := (calculateMatchPercentage ds.1 p + (1 - ds.2)) / 2 }

/-- The comparison under `recommendations.sort(key=lambda x:
x['relevance_score'], reverse=True)`: `a` may precede `b` when `a`'s
relevance is not smaller. -/
def relevanceGe (a b : Recommendation) : Prop :=
  b.relevance_score ≤ a.relevance_score

instance : DecidableRel relevanceGe := fun a b =>
  inferInstanceAs (Decidable (b.relevance_score ≤ a.relevance_score))

instance : IsTotal Recommendation relevanceGe :=
  ⟨fun a b => le_total b.relevance_score a.relevance_score⟩

instance : IsTrans Recommendation relevanceGe :=
  ⟨fun _ _ _ hab hbc => le_trans hbc hab⟩

/-- Embeds `get_recommendations` (lines 153-238): build the query, fetch
`top_k * 2` candidates, score each, stable-sort by relevance descending,
truncate to `top_k`; any exception anywhere in the body is caught and
turned into a plain `[]` return (lines 233-238). -/
def getRecommendations (search : String → Nat → Except String (List (Metadata × ℚ)))
    (preferences : Preferences) (top_k : Nat) : List Recommendation :=
  match search (createQueryFromPreferences preferences) (top_k * 2) with
  | .error _ => []
  | .ok similar_docs =>
      (List.insertionSort relevanceGe
        (similar_docs.map (scoreCandidate preferences))).take top_k

/-- One raw item of `self.university_data` (the JSON catalog list). Only
the three fields read by the metadata accessors
(`get_available_programs` / `get_available_countries` /
`get_available_locations`) are modelled. -/
structure RawItem where
  parent_course_name : Option String := none
  country_name : Option String := none
  location_name : Option String := none
deriving DecidableEq

/-- One step of building the Python counting dict:
`counts[key] = counts.get(key, 0) + 1`. An existing key keeps its position
(in-place update); a new key is appended, matching dict insertion order. -/
def bumpCount (counts : List (String × Nat)) (key : String) : List (String × Nat) :=
  if counts.any (fun kv => kv.1 == key) then
    counts.map (fun kv => if kv.1 == key then (kv.1, kv.2 + 1) else kv)
  else counts ++ [(key, 1)]

/-- The loop body shared by `get_available_programs` and
`get_available_countries`: count the item's field value when it is truthy. -/
def countStep (get : RawItem → Option String) (counts : List (String × Nat))
    (item : RawItem) : List (String × Nat) :=
  match get item with
  | some v => if v.isEmpty then counts else bumpCount counts v
  | none => counts

/-- The frequency dict (`program_counts` / `country_counts`) as an ordered
association list, built by folding `countStep` over the catalog. -/
def fieldCounts (get : RawItem → Option String) (data : List RawItem) :
    List (String × Nat) :=
  data.foldl (countStep get) []

/-- The comparison realised by Python's
`sorted(counts.items(), key=lambda x: (-x[1], x[0]))`: higher count first,
ties broken alphabetically. -/
def popLe (a b : String × Nat) : Prop :=
  b.2 < a.2 ∨ (a.2 = b.2 ∧ strLe a.1 b.1 = true)

instance : DecidableRel popLe := fun a b =>
  inferInstanceAs (Decidable (b.2 < a.2 ∨ (a.2 = b.2 ∧ strLe a.1 b.1 = true)))

/-- Alphabetical order on strings as a relation for sorting. -/
def strLeRel (a b : String) : Prop := strLe a b = true

instance : DecidableRel strLeRel := fun a b =>
  inferInstanceAs (Decidable (strLe a b = true))

/-- Embeds `get_available_programs` (lines 372-388): count truthy
`parent_course_name` values, sort by `(-count, name)`, return the names. -/
def getAvailablePrograms (data : List RawItem) : List String :=
  if data.isEmpty then []
  else
    (List.insertionSort popLe
      (fieldCounts (fun item => item.parent_course_name) data)).map (fun kv => kv.1)

/-- Embeds `get_available_countries` (lines 390-406): identical to
`get_available_programs` but over `country_name`. -/
def getAvailableCountries (data : List RawItem) : List String :=
  if data.isEmpty then []
  else
    (List.insertionSort popLe
      (fieldCounts (fun item => item.country_name) data)).map (fun kv => kv.1)

/-- The distinct truthy values of a field in first-occurrence order.
For `get_available_locations` this is the Python `set` of locations; the
set's iteration order is irrelevant because the result is sorted. -/
def collectKeys (get : RawItem → Option String) (data : List RawItem) : List String :=
  data.foldl (fun ks item =>
    match get item with
    | some v => if v.isEmpty then ks else if ks.contains v then ks else ks ++ [v]
    | none => ks) []

/-- Embeds `get_available_locations` (lines 408-418): the sorted distinct
truthy `location_name` values. -/
def getAvailableLocations (data : List RawItem) : List String :=
  if data.isEmpty then []
  else List.insertionSort strLeRel (collectKeys (fun item => item.location_name) data)

/-- Number of catalog items whose field value is exactly `s`
(the occurrence count the claims speak about; independent of the folded
dict so the theorems do not merely restate the construction). -/
def occCount (get : RawItem → Option String) (data : List RawItem) (s : String) : Nat :=
  (data.filter (fun item => get item == some s)).length

theorem programPoints_bounds (m : Metadata) (p : Preferences) :
    0 ≤ (programPoints m p).1 ∧ (programPoints m p).1 ≤ (programPoints m p).2 := by
  unfold programPoints; split_ifs <;> norm_num

theorem levelPoints_bounds (m : Metadata) (p : Preferences) :
    0 ≤ (levelPoints m p).1 ∧ (levelPoints m p).1 ≤ (levelPoints m p).2 := by
  unfold levelPoints; split_ifs <;> norm_num

theorem countryPoints_bounds (m : Metadata) (p : Preferences) :
    0 ≤ (countryPoints m p).1 ∧ (countryPoints m p).1 ≤ (countryPoints m p).2 := by
  unfold countryPoints; split_ifs <;> norm_num

theorem typePoints_bounds (m : Metadata) (p : Preferences) :
    0 ≤ (typePoints m p).1 ∧ (typePoints m p).1 ≤ (typePoints m p).2 := by
  unfold typePoints; split_ifs <;> norm_num

theorem tuitionPoints_bounds (m : Metadata) (p : Preferences) :
    0 ≤ (tuitionPoints m p).1 ∧ (tuitionPoints m p).1 ≤ (tuitionPoints m p).2 := by
  unfold tuitionPoints; split_ifs <;> norm_num

theorem rankPoints_bounds (m : Metadata) (p : Preferences) :
    0 ≤ (rankPoints m p).1 ∧ (rankPoints m p).1 ≤ (rankPoints m p).2 := by
  unfold rankPoints; split_ifs <;> norm_num

theorem matchTotals_bounds (m : Metadata) (p : Preferences) :
    0 ≤ (matchTotals m p).1 ∧ (matchTotals m p).1 ≤ (matchTotals m p).2 := by
  obtain ⟨h1a, h1b⟩ := programPoints_bounds m p
  obtain ⟨h2a, h2b⟩ := levelPoints_bounds m p
  obtain ⟨h3a, h3b⟩ := countryPoints_bounds m p
  obtain ⟨h4a, h4b⟩ := typePoints_bounds m p
  obtain ⟨h5a, h5b⟩ := tuitionPoints_bounds m p
  obtain ⟨h6a, h6b⟩ := rankPoints_bounds m p
  unfold matchTotals
  constructor
  · positivity
  · dsimp only
    gcongr

theorem calcMP_nonneg (m : Metadata) (p : Preferences) :
    0 ≤ calculateMatchPercentage m p := by
  unfold calculateMatchPercentage
  split_ifs with h
  · exact mul_nonneg (div_nonneg (matchTotals_bounds m p).1 (le_of_lt h)) (by norm_num)
  · exact le_refl 0

theorem calcMP_le_100 (m : Metadata) (p : Preferences) :
    calculateMatchPercentage m p ≤ 100 := by
  unfold calculateMatchPercentage
  split_ifs with h
  · obtain ⟨h0, hle⟩ := matchTotals_bounds m p
    calc (matchTotals m p).1 / (matchTotals m p).2 * 100
        ≤ 1 * 100 := by
          apply mul_le_mul_of_nonneg_right _ (by norm_num)
          exact (div_le_one h).mpr hle
      _ = 100 := by norm_num
  · norm_num

/-- C5: for every record and every preferences input, `match_percentage`
lies in [0,100]; when `total_points` is 0 — in particular when no
recognized preference field is set — the result is 0 (computed by the
explicit `else 0` branch, not an error, and not 100). -/
theorem match_percentage_bounds_and_neutrality (m : Metadata) (p : Preferences) :
    0 ≤ calculateMatchPercentage m p ∧ calculateMatchPercentage m p ≤ 100 ∧
    ((matchTotals m p).2 = 0 → calculateMatchPercentage m p = 0) ∧
    (strTruthy p.desired_program = false ∧ strTruthy p.program_level = false ∧
      listTruthy p.preferred_countries = false ∧ listTruthy p.university_types = false ∧
      numTruthy p.max_tuition_usd = false ∧ numTruthy p.min_global_rank = false →
      calculateMatchPercentage m p = 0) := by
  refine ⟨calcMP_nonneg m p, calcMP_le_100 m p, ?_, ?_⟩
  · intro h
    unfold calculateMatchPercentage
    simp [h]
  · rintro ⟨h1, h2, h3, h4, h5, h6⟩
    unfold calculateMatchPercentage matchTotals programPoints levelPoints countryPoints
      typePoints tuitionPoints rankPoints
    simp [h1, h2, h3, h4, h5, h6]

theorem match_percentage_bounds_and_neutrality_witness :
    0 ≤ calculateMatchPercentage ({} : Metadata) ({} : Preferences) ∧
    calculateMatchPercentage ({} : Metadata) ({} : Preferences) ≤ 100 ∧
    calculateMatchPercentage ({} : Metadata) ({} : Preferences) = 0 :=
  ⟨(match_percentage_bounds_and_neutrality {} {}).1,
   (match_percentage_bounds_and_neutrality {} {}).2.1,
   (match_percentage_bounds_and_neutrality {} {}).2.2.2 ⟨rfl, rfl, rfl, rfl, rfl, rfl⟩⟩

/-- C7: a record whose parent-course name ("Engineering") does not contain
the desired program but whose course name ("computer science lab") contains
it case-insensitively scores 20 earned out of 25 possible, i.e.
`match_percentage = 80`, when the only preference is
`desired_program = "computer science"`. -/
theorem partial_program_match_via_course_name :
    calculateMatchPercentage
      { parent_course := some "Engineering", course_name := some "computer science lab" }
      { desired_program := some "computer science" } = 80 := by
  have h1 : lowerIn "computer science" "Engineering" = false := by decide
  have h2 : lowerIn "computer science" "computer science lab" = true := by decide
  have h3 : ("computer science".isEmpty) = false := by decide
  have h4 : ("Engineering".isEmpty) = false := by decide
  have h5 : ("computer science lab".isEmpty) = false := by decide
  unfold calculateMatchPercentage matchTotals programPoints levelPoints countryPoints
    typePoints tuitionPoints rankPoints
  norm_num [h1, h2, h3, h4, h5, strTruthy, numTruthy, listTruthy]

/-- C10: throughout the match scorer a present-but-falsy preference value
(`0`, `""`) contributes exactly like an absent one, and a record whose
`tuition_usd` or `global_rank` is 0 is treated as lacking the field: in
each case both `match_points` and `total_points` are unchanged when the
value is replaced by `none`. -/
theorem falsy_values_treated_as_absent (m : Metadata) (p : Preferences) :
    matchTotals m { p with max_tuition_usd := some 0 } =
      matchTotals m { p with max_tuition_usd := none } ∧
    matchTotals m { p with min_global_rank := some 0 } =
      matchTotals m { p with min_global_rank := none } ∧
    matchTotals m { p with desired_program := some "" } =
      matchTotals m { p with desired_program := none } ∧
    matchTotals m { p with program_level := some "" } =
      matchTotals m { p with program_level := none } ∧
    matchTotals { m with tuition_usd := some 0 } p =
      matchTotals { m with tuition_usd := none } p ∧
    matchTotals { m with global_rank := some 0 } p =
      matchTotals { m with global_rank := none } p := by
  have he : ("".isEmpty) = true := rfl
  refine ⟨?_, ?_, ?_, ?_, ?_, ?_⟩ <;>
    simp [matchTotals, programPoints, levelPoints, countryPoints, typePoints,
      tuitionPoints, rankPoints, strTruthy, numTruthy, he]

theorem tuition_guard_counterexample :
    matchTotals { parent_course := some "Computer Science" }
        { desired_program := some "computer science", max_tuition_usd := some 10000 } =
      (25, 25) ∧
    (matchTotals { parent_course := some "Computer Science" }
        { desired_program := some "computer science", max_tuition_usd := some 10000 }).2 ≠ 40 ∧
    calculateMatchPercentage { parent_course := some "Computer Science" }
        { desired_program := some "computer science", max_tuition_usd := some 10000 } = 100 := by
  have h1 : lowerIn "computer science" "Computer Science" = true := by decide
  have h2 : ("computer science".isEmpty) = false := by decide
  have h3 : ("Computer Science".isEmpty) = false := by decide
  refine ⟨?_, ?_, ?_⟩ <;>
    norm_num [calculateMatchPercentage, matchTotals, programPoints, levelPoints,
      countryPoints, typePoints, tuitionPoints, rankPoints,
      h1, h2, h3, strTruthy, numTruthy, listTruthy]

/-- C3 as the code actually behaves: the tuition weight of 15 enters
`total_points` only when BOTH `max_tuition_usd` and the record's
`tuition_usd` are truthy; when the record lacks its side of the pair the
whole category is skipped, exactly as if the preference were unset.
Likewise for `min_global_rank` and `global_rank` (weight 10). -/
theorem tuition_rank_weights_require_record_fields (m : Metadata) (p : Preferences) :
    (numTruthy m.tuition_usd = false →
      matchTotals m p = matchTotals m { p with max_tuition_usd := none }) ∧
    (numTruthy m.global_rank = false →
      matchTotals m p = matchTotals m { p with min_global_rank := none }) ∧
    (numTruthy p.max_tuition_usd = true → numTruthy m.tuition_usd = true →
      (matchTotals m p).2 = (matchTotals m { p with max_tuition_usd := none }).2 + 15) ∧
    (numTruthy p.min_global_rank = true → numTruthy m.global_rank = true →
      (matchTotals m p).2 = (matchTotals m { p with min_global_rank := none }).2 + 10) := by
  have hn : numTruthy (none : Option ℚ) = false := rfl
  refine ⟨?_, ?_, ?_, ?_⟩
  · intro h
    simp [matchTotals, programPoints, levelPoints, countryPoints, typePoints,
      tuitionPoints, rankPoints, h, hn]
  · intro h
    simp [matchTotals, programPoints, levelPoints, countryPoints, typePoints,
      tuitionPoints, rankPoints, h, hn]
  · intro h1 h2
    have hp : programPoints m { p with max_tuition_usd := none } = programPoints m p := rfl
    have hl : levelPoints m { p with max_tuition_usd := none } = levelPoints m p := rfl
    have hc : countryPoints m { p with max_tuition_usd := none } = countryPoints m p := rfl
    have hy : typePoints m { p with max_tuition_usd := none } = typePoints m p := rfl
    have hr : rankPoints m { p with max_tuition_usd := none } = rankPoints m p := rfl
    have ht0 : tuitionPoints m { p with max_tuition_usd := none } = (0, 0) := rfl
    have ht15 : (tuitionPoints m p).2 = 15 := by
      unfold tuitionPoints
      simp [h1, h2, apply_ite]
    simp only [matchTotals, hp, hl, hc, hy, hr, ht0, ht15]
    ring
  · intro h1 h2
    have hp : programPoints m { p with min_global_rank := none } = programPoints m p := rfl
    have hl : levelPoints m { p with min_global_rank := none } = levelPoints m p := rfl
    have hc : countryPoints m { p with min_global_rank := none } = countryPoints m p := rfl
    have hy : typePoints m { p with min_global_rank := none } = typePoints m p := rfl
    have ht : tuitionPoints m { p with min_global_rank := none } = tuitionPoints m p := rfl
    have hr0 : rankPoints m { p with min_global_rank := none } = (0, 0) := rfl
    have hr10 : (rankPoints m p).2 = 10 := by
      unfold rankPoints
      simp [h1, h2, apply_ite]
    simp only [matchTotals, hp, hl, hc, hy, ht, hr0, hr10]
    ring

theorem tuition_rank_weights_require_record_fields_witness :
    (matchTotals ({} : Metadata)
        { max_tuition_usd := some 10000, min_global_rank := some 100 } =
      matchTotals ({} : Metadata)
        { min_global_rank := some 100 }) ∧
    (matchTotals ({} : Metadata)
        { max_tuition_usd := some 10000, min_global_rank := some 100 } =
      matchTotals ({} : Metadata)
        { max_tuition_usd := some 10000 }) ∧
    ((matchTotals { tuition_usd := some 20000, global_rank := some 50 }
        { max_tuition_usd := some 10000, min_global_rank := some 100 }).2 =
      (matchTotals { tuition_usd := some 20000, global_rank := some 50 }
        { min_global_rank := some 100 }).2 + 15) ∧
    ((matchTotals { tuition_usd := some 20000, global_rank := some 50 }
        { max_tuition_usd := some 10000, min_global_rank := some 100 }).2 =
      (matchTotals { tuition_usd := some 20000, global_rank := some 50 }
        { max_tuition_usd := some 10000 }).2 + 10) :=
  ⟨(tuition_rank_weights_require_record_fields {}
      { max_tuition_usd := some 10000, min_global_rank := some 100 }).1 rfl,
   (tuition_rank_weights_require_record_fields {}
      { max_tuition_usd := some 10000, min_global_rank := some 100 }).2.1 rfl,
   (tuition_rank_weights_require_record_fields
      { tuition_usd := some 20000, global_rank := some 50 }
      { max_tuition_usd := some 10000, min_global_rank := some 100 }).2.2.1
      (by decide) (by decide),
   (tuition_rank_weights_require_record_fields
      { tuition_usd := some 20000, global_rank := some 50 }
      { max_tuition_usd := some 10000, min_global_rank := some 100 }).2.2.2
      (by decide) (by decide)⟩

theorem relevance_blend_counterexample :
    getRecommendations
        (fun _ _ => Except.ok [({ parent_course := some "Computer Science" }, 0)])
        { desired_program := some "computer science" } 1 =
      [scoreCandidate { desired_program := some "computer science" }
        ({ parent_course := some "Computer Science" }, 0)] ∧
    (scoreCandidate { desired_program := some "computer science" }
        ({ parent_course := some "Computer Science" }, 0)).match_percentage = 100 ∧
    (scoreCandidate { desired_program := some "computer science" }
        ({ parent_course := some "Computer Science" }, 0)).relevance_score = 101 / 2 ∧
    relevanceSpecBlend 100 0 = 1 ∧
    ¬ ((101 : ℚ) / 2 ≤ 1) := by
  have hmp : calculateMatchPercentage { parent_course := some "Computer Science" }
      { desired_program := some "computer science" } = 100 := by
    have h1 : lowerIn "computer science" "Computer Science" = true := by decide
    have h2 : ("computer science".isEmpty) = false := by decide
    have h3 : ("Computer Science".isEmpty) = false := by decide
    norm_num [calculateMatchPercentage, matchTotals, programPoints, levelPoints,
      countryPoints, typePoints, tuitionPoints, rankPoints,
      h1, h2, h3, strTruthy, numTruthy, listTruthy]
  refine ⟨?_, ?_, ?_, ?_, ?_⟩
  · simp [getRecommendations]
  · simp [scoreCandidate, hmp]
  · simp [scoreCandidate, hmp]
    norm_num
  · norm_num [relevanceSpecBlend]
  · norm_num

/-- C1 as the code actually behaves: every scored candidate's
`relevance_score` is `(match_percentage + (1 - similarity_score)) / 2`
with the percentage NOT divided by 100 (line 218), so for a similarity
distance in [0,1] the blend lies in [0, 101/2], not in [0,1]. -/
theorem relevance_blend_amended (m : Metadata) (p : Preferences) (s : ℚ) :
    (scoreCandidate p (m, s)).relevance_score =
      ((scoreCandidate p (m, s)).match_percentage + (1 - s)) / 2 ∧
    (0 ≤ s → s ≤ 1 →
      0 ≤ (scoreCandidate p (m, s)).relevance_score ∧
        (scoreCandidate p (m, s)).relevance_score ≤ 101 / 2) := by
  constructor
  · rfl
  · intro hs0 hs1
    have hmp0 := calcMP_nonneg m p
    have hmp100 := calcMP_le_100 m p
    constructor
    · simp only [scoreCandidate]
      have : (0 : ℚ) ≤ 1 - s := by linarith
      positivity
    · simp only [scoreCandidate]
      nlinarith

theorem relevance_blend_amended_witness :
    (scoreCandidate {} (({} : Metadata), 0)).relevance_score =
      ((scoreCandidate {} (({} : Metadata), 0)).match_percentage + (1 - 0)) / 2 ∧
    (0 ≤ (scoreCandidate {} (({} : Metadata), 0)).relevance_score ∧
      (scoreCandidate {} (({} : Metadata), 0)).relevance_score ≤ 101 / 2) :=
  ⟨(relevance_blend_amended {} {} 0).1,
   (relevance_blend_amended {} {} 0).2 (by norm_num) (by norm_num)⟩

theorem failure_indistinguishable_from_no_matches :
    getRecommendations (fun _ _ => Except.error "embedding provider unavailable")
        { desired_program := some "computer science" } 5 = [] ∧
    getRecommendations (fun _ _ => Except.ok [])
        { desired_program := some "computer science" } 5 = [] := by
  constructor
  · simp [getRecommendations]
  · simp [getRecommendations]

/-- C2 as the code actually behaves: when anything in the body of
`get_recommendations` raises — modelled by the search step returning an
error — the blanket `except` handler (lines 233-238) swallows the failure
and the call returns a plain empty list, a value indistinguishable from a
successful zero-match answer; nothing resembling a `RecommendationError`
is raised or defined anywhere in the repository. -/
theorem failures_return_empty_list (e : String) (p : Preferences) (top_k : Nat) :
    getRecommendations (fun _ _ => Except.error e) p top_k = [] := by
  simp [getRecommendations]

theorem reasons_missing_counterexample :
    calculateMatchPercentage { program_type := some "Masters Degree" }
        { program_level := some "master" } = 100 ∧
    fallbackReasons { program_type := some "Masters Degree" }
        { program_level := some "master" } = [] ∧
    calculateMatchPercentage
        { parent_course := some "Engineering", course_name := some "computer science lab" }
        { desired_program := some "computer science" } = 80 ∧
    fallbackReasons
        { parent_course := some "Engineering", course_name := some "computer science lab" }
        { desired_program := some "computer science" } = [] := by
  have h1 : lowerIn "master" "Masters Degree" = true := by decide
  have h2 : ("master".isEmpty) = false := by decide
  have h3 : ("Masters Degree".isEmpty) = false := by decide
  have h4 : lowerIn "computer science" "Engineering" = false := by decide
  have h5 : lowerIn "computer science" "computer science lab" = true := by decide
  have h6 : ("computer science".isEmpty) = false := by decide
  have h7 : ("Engineering".isEmpty) = false := by decide
  have h8 : ("computer science lab".isEmpty) = false := by decide
  refine ⟨?_, ?_, ?_, ?_⟩
  · norm_num [calculateMatchPercentage, matchTotals, programPoints, levelPoints,
      countryPoints, typePoints, tuitionPoints, rankPoints,
      h1, h2, h3, strTruthy, numTruthy, listTruthy]
  · simp [fallbackReasons, strTruthy, numTruthy, listTruthy]
  · norm_num [calculateMatchPercentage, matchTotals, programPoints, levelPoints,
      countryPoints, typePoints, tuitionPoints, rankPoints,
      h4, h5, h6, h7, h8, strTruthy, numTruthy, listTruthy]
  · simp [fallbackReasons, strTruthy, numTruthy, listTruthy, h4, h6, h7]

/-- C4 as the code actually behaves: `_generate_fallback_reasoning` emits
one reason string naming the matched attribute and its value for exactly
five of the scorer's match tests — full program match via parent course,
country, tuition, global rank, and university type. A program-level match
and a partial program match via the course name produce no reason at all:
the reasons are completely independent of `program_level` and of the
record's `course_name`. -/
theorem reasons_cover_five_categories (m : Metadata) (p : Preferences) :
    ((strTruthy p.desired_program && strTruthy m.parent_course &&
        lowerIn (p.desired_program.getD "") (m.parent_course.getD "")) = true →
      ("Perfect program match: " ++ p.desired_program.getD "") ∈ fallbackReasons m p) ∧
    ((listTruthy p.preferred_countries && strTruthy m.country &&
        p.preferred_countries.contains (m.country.getD "")) = true →
      ("Located in your preferred country: " ++ m.country.getD "") ∈ fallbackReasons m p) ∧
    ((numTruthy p.max_tuition_usd && numTruthy m.tuition_usd &&
        decide (m.tuition_usd.getD 0 ≤ p.max_tuition_usd.getD 0)) = true →
      ("Within your budget: $" ++ usdRender (m.tuition_usd.getD 0)) ∈ fallbackReasons m p) ∧
    ((numTruthy p.min_global_rank && numTruthy m.global_rank &&
        decide (m.global_rank.getD 0 ≤ p.min_global_rank.getD 0)) = true →
      ("Meets your ranking criteria: #" ++ ratToStr (m.global_rank.getD 0)) ∈
        fallbackReasons m p) ∧
    ((listTruthy p.university_types && strTruthy m.university_type &&
        p.university_types.contains (m.university_type.getD "")) = true →
      ("University type matches: " ++ m.university_type.getD "") ∈ fallbackReasons m p) ∧
    (∀ x, fallbackReasons m { p with program_level := x } = fallbackReasons m p) ∧
    (∀ x, fallbackReasons { m with course_name := x } p = fallbackReasons m p) := by
  refine ⟨?_, ?_, ?_, ?_, ?_, fun x => rfl, fun x => rfl⟩ <;>
    · intro h
      simp only [Bool.and_eq_true, decide_eq_true_eq] at h
      obtain ⟨⟨ha, hb⟩, hc⟩ := h
      try simp at hc
      simp [fallbackReasons, ha, hb, hc]

theorem reasons_cover_five_categories_witness :
    ("Perfect program match: " ++ "computer science") ∈
      fallbackReasons
        { parent_course := some "Computer Science", country := some "Canada",
          tuition_usd := some 20000, global_rank := some 50,
          university_type := some "Private" }
        { desired_program := some "computer science", preferred_countries := ["Canada"],
          max_tuition_usd := some 25000, min_global_rank := some 100,
          university_types := ["Private"] } ∧
    ("Located in your preferred country: " ++ "Canada") ∈
      fallbackReasons
        { parent_course := some "Computer Science", country := some "Canada",
          tuition_usd := some 20000, global_rank := some 50,
          university_type := some "Private" }
        { desired_program := some "computer science", preferred_countries := ["Canada"],
          max_tuition_usd := some 25000, min_global_rank := some 100,
          university_types := ["Private"] } ∧
    ("Within your budget: $" ++ usdRender 20000) ∈
      fallbackReasons
        { parent_course := some "Computer Science", country := some "Canada",
          tuition_usd := some 20000, global_rank := some 50,
          university_type := some "Private" }
        { desired_program := some "computer science", preferred_countries := ["Canada"],
          max_tuition_usd := some 25000, min_global_rank := some 100,
          university_types := ["Private"] } ∧
    ("Meets your ranking criteria: #" ++ ratToStr 50) ∈
      fallbackReasons
        { parent_course := some "Computer Science", country := some "Canada",
          tuition_usd := some 20000, global_rank := some 50,
          university_type := some "Private" }
        { desired_program := some "computer science", preferred_countries := ["Canada"],
          max_tuition_usd := some 25000, min_global_rank := some 100,
          university_types := ["Private"] } ∧
    ("University type matches: " ++ "Private") ∈
      fallbackReasons
        { parent_course := some "Computer Science", country := some "Canada",
          tuition_usd := some 20000, global_rank := some 50,
          university_type := some "Private" }
        { desired_program := some "computer science", preferred_countries := ["Canada"],
          max_tuition_usd := some 25000, min_global_rank := some 100,
          university_types := ["Private"] } :=
  ⟨(reasons_cover_five_categories _ _).1 (by decide),
   (reasons_cover_five_categories _ _).2.1 (by decide),
   (reasons_cover_five_categories _ _).2.2.1 (by decide),
   (reasons_cover_five_categories _ _).2.2.2.1 (by decide),
   (reasons_cover_five_categories _ _).2.2.2.2.1 (by decide)⟩

/-- C9: the pipeline is deterministic — equal preference records produce
identical output sequences for the same catalog/index (`search`) — and
the synthesized query is exactly the spec's fixed-order rendering of the
present fields, with absent (falsy) fields omitted entirely. -/
theorem deterministic_recommendations_and_query (p q : Preferences) :
    (p = q → ∀ (search : String → Nat → Except String (List (Metadata × ℚ)))
      (top_k : Nat),
      getRecommendations search p top_k = getRecommendations search q top_k) ∧
    createQueryFromPreferences p = buildQuerySpec p := by
  constructor
  · rintro rfl search top_k
    rfl
  · unfold createQueryFromPreferences buildQuerySpec
    split_ifs <;> rfl

theorem deterministic_recommendations_and_query_witness :
    getRecommendations (fun _ _ => Except.ok [])
        { desired_program := some "computer science" } 3 =
      getRecommendations (fun _ _ => Except.ok [])
        { desired_program := some "computer science" } 3 ∧
    createQueryFromPreferences { desired_program := some "computer science" } =
      buildQuerySpec { desired_program := some "computer science" } :=
  ⟨(deterministic_recommendations_and_query
      { desired_program := some "computer science" }
      { desired_program := some "computer science" }).1 rfl
      (fun _ _ => Except.ok []) 3,
   (deterministic_recommendations_and_query
      { desired_program := some "computer science" }
      { desired_program := some "computer science" }).2⟩

/-- C6: `get_recommendations` reads the index only through one call
requesting `top_k * 2` nearest candidates for the synthesized query, and
(when that call succeeds) its output is the first `top_k` entries of a
descending stable sort of the scored candidates: a permutation, pairwise
non-increasing in relevance, in which candidates with equal relevance keep
their original retrieval order. -/
theorem overfetch_sort_truncate
    (search : String → Nat → Except String (List (Metadata × ℚ)))
    (p : Preferences) (top_k : Nat) :
    (∀ search2 : String → Nat → Except String (List (Metadata × ℚ)),
      search2 (createQueryFromPreferences p) (top_k * 2) =
          search (createQueryFromPreferences p) (top_k * 2) →
      getRecommendations search2 p top_k = getRecommendations search p top_k) ∧
    (∀ docs : List (Metadata × ℚ),
      search (createQueryFromPreferences p) (top_k * 2) = Except.ok docs →
      ∃ L : List Recommendation,
        getRecommendations search p top_k = L.take top_k ∧
        L.Perm (docs.map (scoreCandidate p)) ∧
        L.Pairwise relevanceGe ∧
        (∀ a b : Recommendation,
          List.Sublist [a, b] (docs.map (scoreCandidate p)) →
          a.relevance_score = b.relevance_score → List.Sublist [a, b] L)) := by
  constructor
  · intro search2 h
    unfold getRecommendations
    rw [h]
  · intro docs h
    refine ⟨List.insertionSort relevanceGe (docs.map (scoreCandidate p)), ?_, ?_, ?_, ?_⟩
    · unfold getRecommendations
      rw [h]
    · exact List.perm_insertionSort relevanceGe _
    · exact List.sorted_insertionSort relevanceGe _
    · intro a b hsub heq
      exact List.pair_sublist_insertionSort (le_of_eq heq.symm) hsub

theorem overfetch_sort_truncate_witness :
    getRecommendations
        (fun _ _ => Except.ok [(({} : Metadata), 0), (({} : Metadata), 1)])
        ({} : Preferences) 1 =
      getRecommendations
        (fun _ _ => Except.ok [(({} : Metadata), 0), (({} : Metadata), 1)])
        ({} : Preferences) 1 ∧
    ∃ L : List Recommendation,
      getRecommendations
          (fun _ _ => Except.ok [(({} : Metadata), 0), (({} : Metadata), 1)])
          ({} : Preferences) 1 = L.take 1 ∧
      L.Perm ([(({} : Metadata), (0 : ℚ)), (({} : Metadata), 1)].map
        (scoreCandidate ({} : Preferences))) ∧
      L.Pairwise relevanceGe ∧
      (∀ a b : Recommendation,
        List.Sublist [a, b] ([(({} : Metadata), (0 : ℚ)), (({} : Metadata), 1)].map
          (scoreCandidate ({} : Preferences))) →
        a.relevance_score = b.relevance_score → List.Sublist [a, b] L) :=
  ⟨(overfetch_sort_truncate
      (fun _ _ => Except.ok [(({} : Metadata), 0), (({} : Metadata), 1)]) {} 1).1
      (fun _ _ => Except.ok [(({} : Metadata), 0), (({} : Metadata), 1)]) rfl,
   (overfetch_sort_truncate
      (fun _ _ => Except.ok [(({} : Metadata), 0), (({} : Metadata), 1)]) {} 1).2
      [(({} : Metadata), 0), (({} : Metadata), 1)] rfl⟩

theorem char_toNat_injective {a b : Char} (h : a.toNat = b.toNat) : a = b := by
  apply Char.eq_of_val_eq
  apply UInt32.eq_of_toBitVec_eq
  apply BitVec.eq_of_toNat_eq
  exact h

theorem lexLe_total : ∀ a b : List Char, lexLe a b = true ∨ lexLe b a = true
  | [], _ => Or.inl rfl
  | _ :: _, [] => Or.inr rfl
  | a :: as, b :: bs => by
    by_cases hab : a = b
    · subst hab
      simpa only [lexLe, beq_self_eq_true, if_true] using lexLe_total as bs
    · have h1 : (a == b) = false := beq_eq_false_iff_ne.mpr hab
      have h2 : (b == a) = false := beq_eq_false_iff_ne.mpr (Ne.symm hab)
      simp only [lexLe, h1, h2, Bool.false_eq_true, if_false, decide_eq_true_eq]
      rcases Nat.lt_or_ge a.toNat b.toNat with h | h
      · exact Or.inl h
      · rcases Nat.lt_or_eq_of_le h with h3 | h3
        · exact Or.inr h3
        · exact absurd (char_toNat_injective h3.symm) hab

theorem lexLe_trans :
    ∀ {a b c : List Char}, lexLe a b = true → lexLe b c = true → lexLe a c = true
  | [], _, _, _, _ => rfl
  | _ :: _, [], _, h, _ => by simp [lexLe] at h
  | _ :: _, _ :: _, [], _, h2 => by simp [lexLe] at h2
  | a :: as, b :: bs, c :: cs, h1, h2 => by
    by_cases hab : a = b <;> by_cases hbc : b = c
    · subst hab; subst hbc
      simp only [lexLe, beq_self_eq_true, if_true] at h1 h2 ⊢
      exact lexLe_trans h1 h2
    · subst hab
      have hac : (a == c) = false := beq_eq_false_iff_ne.mpr hbc
      simp only [lexLe, hac, Bool.false_eq_true, if_false, beq_eq_false_iff_ne,
        decide_eq_true_eq] at h2 ⊢
      simpa only [lexLe, hac, Bool.false_eq_true, if_false, decide_eq_true_eq] using h2
    · subst hbc
      have hac : (a == b) = false := beq_eq_false_iff_ne.mpr hab
      simp only [lexLe, hac, Bool.false_eq_true, if_false, decide_eq_true_eq] at h1 ⊢
      exact h1
    · have h1n : (a == b) = false := beq_eq_false_iff_ne.mpr hab
      have h2n : (b == c) = false := beq_eq_false_iff_ne.mpr hbc
      simp only [lexLe, h1n, h2n, Bool.false_eq_true, if_false, decide_eq_true_eq] at h1 h2
      have hlt : a.toNat < c.toNat := Nat.lt_trans h1 h2
      have hac : (a == c) = false := by
        refine beq_eq_false_iff_ne.mpr (fun h => ?_)
        subst h
        exact Nat.lt_irrefl _ hlt
      simp only [lexLe, hac, Bool.false_eq_true, if_false, decide_eq_true_eq]
      exact hlt

instance : IsTotal String strLeRel :=
  ⟨fun a b => lexLe_total a.toList b.toList⟩

instance : IsTrans String strLeRel :=
  ⟨fun _ _ _ h1 h2 => lexLe_trans h1 h2⟩

instance : IsTotal (String × Nat) popLe := by
  constructor
  intro a b
  rcases Nat.lt_trichotomy a.2 b.2 with h | h | h
  · exact Or.inr (Or.inl h)
  · rcases lexLe_total a.1.toList b.1.toList with hs | hs
    · exact Or.inl (Or.inr ⟨h, hs⟩)
    · exact Or.inr (Or.inr ⟨h.symm, hs⟩)
  · exact Or.inl (Or.inl h)

instance : IsTrans (String × Nat) popLe := by
  constructor
  rintro a b c (hab | ⟨hab, sab⟩) (hbc | ⟨hbc, sbc⟩)
  · exact Or.inl (Nat.lt_trans hbc hab)
  · exact Or.inl (hbc ▸ hab)
  · exact Or.inl (hab ▸ hbc)
  · exact Or.inr ⟨hab.trans hbc, lexLe_trans sab sbc⟩

theorem occCount_snoc (get : RawItem → Option String) (data : List RawItem)
    (item : RawItem) (s : String) :
    occCount get (data ++ [item]) s =
      occCount get data s + (if get item = some s then 1 else 0) := by
  by_cases h : get item = some s
  · simp [occCount, List.filter_append, List.filter_singleton, h]
  · have hb : (get item == some s) = false := by
      simpa using h
    simp [occCount, List.filter_append, List.filter_singleton, hb, h]

theorem bumpCount_of_mem (keys : List String) (f : String → Nat) (v : String)
    (hmem : v ∈ keys) :
    bumpCount (keys.map (fun k => (k, f k))) v =
      keys.map (fun k => (k, if k = v then f k + 1 else f k)) := by
  unfold bumpCount
  rw [if_pos]
  · rw [List.map_map]
    apply List.map_congr_left
    intro k _
    by_cases h : k = v <;> simp [h]
  · simp only [List.any_eq_true]
    exact ⟨(v, f v), List.mem_map_of_mem _ hmem, by simp⟩

theorem bumpCount_of_not_mem (keys : List String) (f : String → Nat) (v : String)
    (hmem : v ∉ keys) :
    bumpCount (keys.map (fun k => (k, f k))) v =
      keys.map (fun k => (k, f k)) ++ [(v, 1)] := by
  unfold bumpCount
  have hneg : ¬ (keys.map (fun k => (k, f k))).any (fun kv => kv.1 == v) = true := by
    intro hx
    simp only [List.any_eq_true] at hx
    obtain ⟨kv, hkv_mem, hkv⟩ := hx
    obtain ⟨k, hk, rfl⟩ := List.mem_map.mp hkv_mem
    simp only [beq_iff_eq] at hkv
    exact hmem (hkv ▸ hk)
  rw [if_neg hneg]

theorem collectKeys_snoc (get : RawItem → Option String) (d : List RawItem)
    (item : RawItem) :
    collectKeys get (d ++ [item]) =
      (match get item with
        | some v => if v.isEmpty then collectKeys get d
            else if (collectKeys get d).contains v then collectKeys get d
            else collectKeys get d ++ [v]
        | none => collectKeys get d) := by
  unfold collectKeys
  rw [List.foldl_append]
  rfl

theorem fieldCounts_spec (get : RawItem → Option String) (data : List RawItem) :
    fieldCounts get data =
        (collectKeys get data).map (fun k => (k, occCount get data k)) ∧
      (collectKeys get data).Nodup ∧
      (∀ s, s ∈ collectKeys get data ↔ (s.isEmpty = false ∧ occCount get data s ≠ 0)) := by
  induction data using List.reverseRecOn with
  | nil => simp [fieldCounts, collectKeys, occCount]
  | append_singleton d item ih =>
    obtain ⟨ih1, ih2, ih3⟩ := ih
    have hkey_ne : ∀ k ∈ collectKeys get d, k.isEmpty = false :=
      fun k hk => ((ih3 k).mp hk).1
    have hfc : fieldCounts get (d ++ [item]) =
        countStep get (fieldCounts get d) item := by
      simp [fieldCounts]
    rcases hgi : get item with _ | v
    · have hocc : ∀ s, occCount get (d ++ [item]) s = occCount get d s := by
        intro s
        rw [occCount_snoc]
        simp [hgi]
      have hck : collectKeys get (d ++ [item]) = collectKeys get d := by
        rw [collectKeys_snoc, hgi]
      rw [hfc, hck]
      simp only [countStep, hgi]
      refine ⟨?_, ih2, ?_⟩
      · rw [ih1]
        exact List.map_congr_left (fun k _ => by rw [hocc])
      · intro s
        rw [hocc]
        exact ih3 s
    · by_cases hv : v.isEmpty
      · have hvne : v ∉ collectKeys get d := fun hm => by
          have := hkey_ne v hm
          rw [hv] at this
          exact Bool.true_eq_false.mp this
        have hocc : ∀ s, s ∈ collectKeys get d →
            occCount get (d ++ [item]) s = occCount get d s := by
          intro s hs
          rw [occCount_snoc]
          have : ¬ get item = some s := by
            rw [hgi]
            intro he
            exact hvne ((Option.some_inj.mp he) ▸ hs)
          simp [this]
        have hck : collectKeys get (d ++ [item]) = collectKeys get d := by
          rw [collectKeys_snoc, hgi]
          show (if v.isEmpty = true then collectKeys get d
            else if (collectKeys get d).contains v = true then collectKeys get d
            else collectKeys get d ++ [v]) = collectKeys get d
          rw [if_pos hv]
        rw [hfc, hck]
        simp only [countStep, hgi, hv, if_true]
        refine ⟨?_, ih2, ?_⟩
        · rw [ih1]
          exact List.map_congr_left (fun k hk => by rw [hocc k hk])
        · intro s
          by_cases hs : s = v
          · subst hs
            constructor
            · intro hm
              exact absurd hm hvne
            · rintro ⟨hse, _⟩
              rw [hv] at hse
              exact absurd hse (by simp)
          · rw [occCount_snoc]
            have : ¬ get item = some s := by
              rw [hgi]
              intro he
              exact hs (Option.some_inj.mp he).symm
            simp only [this, if_false, Nat.add_zero]
            exact ih3 s
      · have hvE : v.isEmpty = false := Bool.not_eq_true _ ▸ (by simpa using hv)
        have hocc_v : occCount get (d ++ [item]) v = occCount get d v + 1 := by
          rw [occCount_snoc, hgi]
          simp
        have hocc_ne : ∀ s, s ≠ v → occCount get (d ++ [item]) s = occCount get d s := by
          intro s hs
          rw [occCount_snoc, hgi]
          have : ¬ (some v : Option String) = some s := by
            intro he
            exact hs (Option.some_inj.mp he).symm
          simp [this]
        by_cases hmem : v ∈ collectKeys get d
        · have hcont : (collectKeys get d).contains v = true := by
            simp only [List.contains_iff_exists_mem_beq]
            exact ⟨v, hmem, by simp⟩
          have hck : collectKeys get (d ++ [item]) = collectKeys get d := by
            rw [collectKeys_snoc, hgi]
            show (if v.isEmpty = true then collectKeys get d
              else if (collectKeys get d).contains v = true then collectKeys get d
              else collectKeys get d ++ [v]) = collectKeys get d
            rw [if_neg hv, if_pos hcont]
          rw [hfc, hck]
          simp only [countStep, hgi]
          rw [if_neg (by simp [hv])]
          refine ⟨?_, ih2, ?_⟩
          · rw [ih1, bumpCount_of_mem _ _ _ hmem]
            apply List.map_congr_left
            intro k hk
            by_cases hkv : k = v
            · subst hkv
              simp [hocc_v]
            · simp [hkv, hocc_ne k hkv]
          · intro s
            by_cases hs : s = v
            · subst hs
              simp only [hocc_v]
              constructor
              · intro _
                exact ⟨hvE, Nat.succ_ne_zero _⟩
              · intro _
                exact hmem
            · rw [hocc_ne s hs]
              exact ih3 s
        · have hcont : ¬ (collectKeys get d).contains v = true := by
            intro hc
            simp only [List.contains_iff_exists_mem_beq] at hc
            obtain ⟨k, hk, hkb⟩ := hc
            exact hmem ((beq_iff_eq.mp hkb) ▸ hk)
          have hck : collectKeys get (d ++ [item]) = collectKeys get d ++ [v] := by
            rw [collectKeys_snoc, hgi]
            show (if v.isEmpty = true then collectKeys get d
              else if (collectKeys get d).contains v = true then collectKeys get d
              else collectKeys get d ++ [v]) = collectKeys get d ++ [v]
            rw [if_neg hv, if_neg hcont]
          have hocc_v0 : occCount get d v = 0 := by
            by_contra h0
            exact hmem ((ih3 v).mpr ⟨hvE, h0⟩)
          rw [hfc, hck]
          simp only [countStep, hgi]
          rw [if_neg (by simp [hv])]
          refine ⟨?_, ?_, ?_⟩
          · rw [ih1, bumpCount_of_not_mem _ _ _ hmem]
            rw [List.map_append]
            congr 1
            · apply List.map_congr_left
              intro k hk
              have hkv : k ≠ v := fun he => hmem (he ▸ hk)
              rw [hocc_ne k hkv]
            · simp [hocc_v, hocc_v0]
          · simp only [List.nodup_append, List.nodup_singleton]
            exact ⟨ih2, trivial, by simpa [List.disjoint_singleton] using hmem⟩
          · intro s
            by_cases hs : s = v
            · subst hs
              simp only [List.mem_append, List.mem_singleton, or_true, true_iff]
              rw [hocc_v, hocc_v0]
              exact ⟨hvE, Nat.one_ne_zero⟩
            · simp only [List.mem_append, List.mem_singleton, hs, or_false]
              rw [hocc_ne s hs]
              exact ih3 s

theorem popularity_list_spec (get : RawItem → Option String) (data : List RawItem) :
    ((if data.isEmpty then []
      else (List.insertionSort popLe (fieldCounts get data)).map (fun kv => kv.1))).Pairwise
        (fun a b => occCount get data b < occCount get data a ∨
          (occCount get data a = occCount get data b ∧ strLe a b = true)) ∧
    ((if data.isEmpty then []
      else (List.insertionSort popLe (fieldCounts get data)).map (fun kv => kv.1))).Nodup ∧
    (∀ s, s ∈ (if data.isEmpty then []
        else (List.insertionSort popLe (fieldCounts get data)).map (fun kv => kv.1)) ↔
      (s.isEmpty = false ∧ occCount get data s ≠ 0)) := by
  obtain ⟨h1, h2, h3⟩ := fieldCounts_spec get data
  by_cases hd : data.isEmpty
  · have hnil : data = [] := List.isEmpty_iff.mp hd
    subst hnil
    simp [occCount]
  · rw [if_neg hd]
    have hperm : (List.insertionSort popLe (fieldCounts get data)).Perm
        (fieldCounts get data) := List.perm_insertionSort popLe _
    have hsorted : (List.insertionSort popLe (fieldCounts get data)).Pairwise popLe :=
      List.sorted_insertionSort popLe _
    have hmem_pair : ∀ kv ∈ List.insertionSort popLe (fieldCounts get data),
        kv.2 = occCount get data kv.1 := by
      intro kv hkv
      have hkv2 : kv ∈ fieldCounts get data := hperm.mem_iff.mp hkv
      rw [h1] at hkv2
      obtain ⟨k, _, rfl⟩ := List.mem_map.mp hkv2
      rfl
    have hmap_perm : ((List.insertionSort popLe (fieldCounts get data)).map
        (fun kv => kv.1)).Perm (collectKeys get data) := by
      have hp := hperm.map (fun kv : String × Nat => kv.1)
      have h4 : (fieldCounts get data).map (fun kv => kv.1) = collectKeys get data := by
        rw [h1, List.map_map]
        exact List.map_id _
      rw [h4] at hp
      exact hp
    refine ⟨?_, ?_, ?_⟩
    · rw [List.pairwise_map]
      refine hsorted.imp_of_mem ?_
      intro a b ha hb hab
      have ha2 := hmem_pair a ha
      have hb2 := hmem_pair b hb
      rcases hab with h | ⟨h, hs⟩
      · exact Or.inl (by rw [← ha2, ← hb2]; exact h)
      · exact Or.inr ⟨by rw [← ha2, ← hb2]; exact h, hs⟩
    · exact hmap_perm.nodup_iff.mpr h2
    · intro s
      rw [hmap_perm.mem_iff]
      exact h3 s

theorem locations_list_spec (get : RawItem → Option String) (data : List RawItem) :
    ((if data.isEmpty then []
      else List.insertionSort strLeRel (collectKeys get data))).Pairwise strLeRel ∧
    ((if data.isEmpty then []
      else List.insertionSort strLeRel (collectKeys get data))).Nodup ∧
    (∀ s, s ∈ (if data.isEmpty then []
        else List.insertionSort strLeRel (collectKeys get data)) ↔
      (s.isEmpty = false ∧ occCount get data s ≠ 0)) := by
  obtain ⟨_, h2, h3⟩ := fieldCounts_spec get data
  by_cases hd : data.isEmpty
  · have hnil : data = [] := List.isEmpty_iff.mp hd
    subst hnil
    simp [occCount]
  · rw [if_neg hd]
    have hperm : (List.insertionSort strLeRel (collectKeys get data)).Perm
        (collectKeys get data) := List.perm_insertionSort strLeRel _
    refine ⟨List.sorted_insertionSort strLeRel _, hperm.nodup_iff.mpr h2, ?_⟩
    intro s
    rw [hperm.mem_iff]
    exact h3 s

/-- C8: `get_available_programs` and `get_available_countries` list the
distinct truthy values of their field ordered by descending occurrence
count with alphabetical (code-point) tie-break, and
`get_available_locations` lists the distinct truthy location values in
plain alphabetical order. -/
theorem metadata_accessor_orderings (data : List RawItem) :
    ((getAvailablePrograms data).Pairwise (fun a b =>
        occCount (fun i => i.parent_course_name) data b <
            occCount (fun i => i.parent_course_name) data a ∨
          (occCount (fun i => i.parent_course_name) data a =
              occCount (fun i => i.parent_course_name) data b ∧ strLe a b = true)) ∧
      (getAvailablePrograms data).Nodup ∧
      (∀ s, s ∈ getAvailablePrograms data ↔
        (s.isEmpty = false ∧ occCount (fun i => i.parent_course_name) data s ≠ 0))) ∧
    ((getAvailableCountries data).Pairwise (fun a b =>
        occCount (fun i => i.country_name) data b <
            occCount (fun i => i.country_name) data a ∨
          (occCount (fun i => i.country_name) data a =
              occCount (fun i => i.country_name) data b ∧ strLe a b = true)) ∧
      (getAvailableCountries data).Nodup ∧
      (∀ s, s ∈ getAvailableCountries data ↔
        (s.isEmpty = false ∧ occCount (fun i => i.country_name) data s ≠ 0))) ∧
    ((getAvailableLocations data).Pairwise strLeRel ∧
      (getAvailableLocations data).Nodup ∧
      (∀ s, s ∈ getAvailableLocations data ↔
        (s.isEmpty = false ∧ occCount (fun i => i.location_name) data s ≠ 0))) :=
  ⟨popularity_list_spec (fun i => i.parent_course_name) data,
   popularity_list_spec (fun i => i.country_name) data,
   locations_list_spec (fun i => i.location_name) data⟩

theorem metadata_accessor_orderings_witness :
    "USA" ∈ getAvailableCountries
      [{ country_name := some "USA" }, { country_name := some "Chad" },
       { country_name := some "USA" }] :=
  ((metadata_accessor_orderings
      [{ country_name := some "USA" }, { country_name := some "Chad" },
       { country_name := some "USA" }]).2.1.2.2 "USA").mpr
    ⟨by decide, by decide⟩
